import Mathlib

/-!
Shallow embedding of the WebSocket connection/session subsystem of the
chat backend: the `ConnectionManager` class
(`src/backend/src/server/websocket/manager.py`) and the session route
layer (`src/backend/src/server/routes/sessions.py`).

Python dicts are modelled as association lists over `String` keys,
`datetime` timestamps as a `Nat` clock, WebSocket objects as `Nat`
identifiers, and the transport (`websocket.send_json` succeeding or
raising) as an oracle `Nat → Bool` indexed by the WebSocket identifier.
Successful `send_json` calls are recorded in a `delivered` log so that
delivery claims are statable.
-/

namespace ChatServer

/-- JSON values, the shallow embedding of the Python dicts exchanged on
the wire. Timestamps (`datetime.utcnow().isoformat()`) are abstracted
to the `Nat` clock value. -/
inductive Json where
  | str (s : String)
  | num (n : Nat)
  | boolean (b : Bool)
  | null
  | obj (fields : List (String × Json))
  | arr (elems : List Json)
deriving Repr

/-- `d.get(k)` on a Python dict represented as an association list:
the value at the first matching key. -/
def alFind {α : Type} (k : String) : List (String × α) → Option α
  | [] => none
  | p :: rest => if p.1 = k then some p.2 else alFind k rest

/-- `d[k] = v` on a Python dict: replace the binding if the key is
present, otherwise append it. -/
def alSet {α : Type} (k : String) (v : α) : List (String × α) → List (String × α)
  | [] => [(k, v)]
  | p :: rest => if p.1 = k then (k, v) :: rest else p :: alSet k v rest

/-- `del d[k]` on a Python dict: drop every binding of the key. -/
def alDel {α : Type} (k : String) : List (String × α) → List (String × α)
  | [] => []
  | p :: rest => if p.1 = k then alDel k rest else p :: alDel k rest

/-- In-place update of the value stored at a key (`d[k].field = v`). -/
def alMod {α : Type} (k : String) (f : α → α) : List (String × α) → List (String × α)
  | [] => []
  | p :: rest => if p.1 = k then (p.1, f p.2) :: rest else p :: alMod k f rest

/-- The keys of a Python dict. -/
def alKeys {α : Type} (l : List (String × α)) : List String := l.map Prod.fst

/-- `obj.get(k)` on a JSON object (other JSON values have no keys). -/
def jGet (j : Json) (k : String) : Option Json :=
  match j with
  | Json.obj fields => alFind k fields
  | _ => none

/-- Whether a JSON value is an object carrying the given key. -/
def jHasKey (j : Json) (k : String) : Bool := (jGet j k).isSome

/-- `payload.get(k, "")` followed by use as a string: the string at the
key, `""` when absent or not a string. -/
def jGetStr (j : Json) (k : String) : String :=
  match jGet j k with
  | some (Json.str s) => s
  | _ => ""

/-- `payload.get(k, False)` used as a boolean flag. -/
def jGetBool (j : Json) (k : String) : Bool :=
  match jGet j k with
  | some (Json.boolean b) => b
  | _ => false

/-- Per-connection metadata kept by the manager
(`self.connection_metadata[connection_id]`). -/
structure ConnMeta where
  session_id : Option String
  connected_at : Nat
  last_activity : Nat
deriving Repr, DecidableEq

/-- The mutable state of a `ConnectionManager` instance, plus a ghost
`delivered` log recording every successful `websocket.send_json` call
as a pair of the WebSocket identifier and the message. -/
structure ManagerState where
  active_connections : List (String × Nat)
  session_connections : List (String × List String)
  connection_metadata : List (String × ConnMeta)
  delivered : List (Nat × Json)
deriving Repr

/-- The state of a freshly constructed `ConnectionManager`. -/
def emptyManager : ManagerState := ⟨[], [], [], []⟩

/-- Python truthiness of the stored `session_id`
(`if session_id:` is false for `None` and for `""`). -/
def truthyOpt : Option String → Bool
  | none => false
  | some s => decide (s ≠ "")

/-- `set.add` on a session's connection set (sets are modelled as
duplicate-free lists). -/
def addConn (c : String) (l : List String) : List String :=
  if c ∈ l then l else l ++ [c]

/-- The `connection_ack` envelope built inside `ConnectionManager.connect`.
Note the source puts the ids under a `"data"` key. -/
def ackMessage (c : String) (sid : Option String) (now : Nat) : Json :=
  Json.obj
    [("type", Json.str "connection_ack"),
     ("data", Json.obj
       [("connection_id", Json.str c),
        ("session_id", match sid with | some s => Json.str s | none => Json.null)]),
     ("timestamp", Json.num now)]

/-- The session-index removal step of `ConnectionManager.disconnect`:
`if session_id and session_id in self.session_connections:` discard the
connection and delete the session entry once its set is empty. -/
def dropFromSession (c : String) (sid : Option String) (st : ManagerState) : ManagerState :=
  match sid with
  | some s =>
    if s ≠ "" then
      match alFind s st.session_connections with
      | some conns =>
        let conns2 := conns.filter (fun x => decide (x ≠ c))
        if conns2 = [] then
          { st with session_connections := alDel s st.session_connections }
        else
          { st with session_connections := alSet s conns2 st.session_connections }
      | none => st
    else st
  | none => st

/-- `ConnectionManager.disconnect`: no-op on an unknown id, otherwise
remove the connection from its session's set (dropping the session
entry if it empties) and delete it from both registries. -/
def disconnect (c : String) (st : ManagerState) : ManagerState :=
  if (alFind c st.active_connections).isSome then
    let st1 := dropFromSession c ((alFind c st.connection_metadata).bind (fun m => m.session_id)) st
    { st1 with
      active_connections := alDel c st1.active_connections,
      connection_metadata := alDel c st1.connection_metadata }
  else st

/-- `ConnectionManager.send_personal_message`: `False` on unknown ids;
on transport failure the connection is disconnected (self-pruning); on
success the message is delivered and `last_activity` refreshed. -/
def send_personal_message (t : Nat → Bool) (now : Nat) (c : String) (msg : Json)
    (st : ManagerState) : Bool × ManagerState :=
  match alFind c st.active_connections with
  | none => (false, st)
  | some w =>
    if t w then
      let st1 := { st with delivered := st.delivered ++ [(w, msg)] }
      let st2 :=
        if (alFind c st1.connection_metadata).isSome then
          { st1 with connection_metadata := alMod c (fun m => { m with last_activity := now }) st1.connection_metadata }
        else st1
      (true, st2)
    else
      (false, disconnect c st)

/-- The session-index insertion step of `ConnectionManager.connect`
(`if session_id:` create the set if needed and add the connection). -/
def attachToSession (c : String) (sid : Option String) (st : ManagerState) : ManagerState :=
  match sid with
  | some s =>
    if s ≠ "" then
      match alFind s st.session_connections with
      | some conns =>
        { st with session_connections := alSet s (addConn c conns) st.session_connections }
      | none =>
        { st with session_connections := alSet s [c] st.session_connections }
    else st
  | none => st

/-- `ConnectionManager.connect`: register the WebSocket `w` under id
`c`, stamp metadata, attach to the session index, then send the
`connection_ack` through `send_personal_message` (which self-prunes the
fresh connection if the ack send fails). -/
def connect (t : Nat → Bool) (now : Nat) (w : Nat) (c : String) (sid : Option String)
    (st : ManagerState) : ManagerState :=
  let st1 := { st with
    active_connections := alSet c w st.active_connections,
    connection_metadata := alSet c ⟨sid, now, now⟩ st.connection_metadata }
  let st2 := attachToSession c sid st1
  (send_personal_message t now c (ackMessage c sid now) st2).2

/-- The delivery loop of `ConnectionManager.send_to_session`, iterating
over a snapshot of the session's connection set. -/
def sendLoop (t : Nat → Bool) (now : Nat) (msg : Json) :
    List String → ManagerState → Nat × ManagerState
  | [], st => (0, st)
  | c :: rest, st =>
    let r := send_personal_message t now c msg st
    let r2 := sendLoop t now msg rest r.2
    ((if r.1 then 1 else 0) + r2.1, r2.2)

/-- `ConnectionManager.send_to_session`: 0 for an unknown session,
otherwise best-effort delivery to a snapshot of the session's
connections, counting successes. -/
def send_to_session (t : Nat → Bool) (now : Nat) (s : String) (msg : Json)
    (st : ManagerState) : Nat × ManagerState :=
  match alFind s st.session_connections with
  | none => (0, st)
  | some conns => sendLoop t now msg conns st

/-- The sweep loop of `ConnectionManager.cleanup_inactive_connections`,
iterating over a snapshot of `connection_metadata.items()`. -/
def cleanupLoop (now timeout_seconds : Nat) :
    List (String × ConnMeta) → ManagerState → Nat × ManagerState
  | [], st => (0, st)
  | it :: rest, st =>
    if (now : Int) - (it.2.last_activity : Int) > (timeout_seconds : Int) then
      let r := cleanupLoop now timeout_seconds rest (disconnect it.1 st)
      (r.1 + 1, r.2)
    else cleanupLoop now timeout_seconds rest st

/-- `ConnectionManager.cleanup_inactive_connections`: disconnect every
connection idle strictly longer than the timeout; return the count. -/
def cleanup_inactive_connections (now timeout_seconds : Nat) (st : ManagerState) :
    Nat × ManagerState :=
  cleanupLoop now timeout_seconds st.connection_metadata st

/-- `ConnectionManager.get_session_connection_count`. -/
def get_session_connection_count (s : String) (st : ManagerState) : Nat :=
  ((alFind s st.session_connections).getD []).length

/-- Folding `disconnect` over a list of connection ids: the "same
disconnect path as explicit teardown" that the sweep takes. -/
def disconnectAll (items : List (String × ConnMeta)) (st : ManagerState) : ManagerState :=
  items.foldl (fun s it => disconnect it.1 s) st

/-- States reachable from the empty manager by any sequence of API
calls (with arbitrary transports, clocks and arguments). -/
inductive Reachable : ManagerState → Prop where
  | empty : Reachable emptyManager
  | connect (t : Nat → Bool) (now w : Nat) (c : String) (sid : Option String) {st : ManagerState} :
      Reachable st → Reachable (connect t now w c sid st)
  | disconnect (c : String) {st : ManagerState} :
      Reachable st → Reachable (disconnect c st)
  | send (t : Nat → Bool) (now : Nat) (c : String) (msg : Json) {st : ManagerState} :
      Reachable st → Reachable (send_personal_message t now c msg st).2
  | sendSession (t : Nat → Bool) (now : Nat) (s : String) (msg : Json) {st : ManagerState} :
      Reachable st → Reachable (send_to_session t now s msg st).2
  | sweep (now timeout_seconds : Nat) {st : ManagerState} :
      Reachable st → Reachable (cleanup_inactive_connections now timeout_seconds st).2

/-- States reachable when `connect` is only ever called with a
connection id that is not currently registered (fresh ids, as produced
by the uuid-generating callers). -/
inductive ReachableFresh : ManagerState → Prop where
  | empty : ReachableFresh emptyManager
  | connect (t : Nat → Bool) (now w : Nat) (c : String) (sid : Option String) {st : ManagerState} :
      alFind c st.active_connections = none →
      ReachableFresh st → ReachableFresh (connect t now w c sid st)
  | disconnect (c : String) {st : ManagerState} :
      ReachableFresh st → ReachableFresh (disconnect c st)
  | send (t : Nat → Bool) (now : Nat) (c : String) (msg : Json) {st : ManagerState} :
      ReachableFresh st → ReachableFresh (send_personal_message t now c msg st).2
  | sendSession (t : Nat → Bool) (now : Nat) (s : String) (msg : Json) {st : ManagerState} :
      ReachableFresh st → ReachableFresh (send_to_session t now s msg st).2
  | sweep (now timeout_seconds : Nat) {st : ManagerState} :
      ReachableFresh st → ReachableFresh (cleanup_inactive_connections now timeout_seconds st).2

/-- Referential integrity: every id in a session's connection set is a
key of both `active_connections` and `connection_metadata`. -/
def RefIntegrity (st : ManagerState) : Prop :=
  ∀ s conns, alFind s st.session_connections = some conns →
    ∀ c, c ∈ conns →
      (alFind c st.active_connections).isSome ∧ (alFind c st.connection_metadata).isSome

/-- No session is mapped to an empty connection set. -/
def NoEmptySession (st : ManagerState) : Prop :=
  ∀ s conns, alFind s st.session_connections = some conns → conns ≠ []

/-! ### Route layer (`src/backend/src/server/routes/sessions.py`)

The sessions router keeps its own module-level stores: `sessions_db`,
`messages_db`, and an `active_connections` dict keyed by *session id*
(one WebSocket per session). UUIDs are passed in as parameters. -/

/-- A record of `sessions_db`. -/
structure SessionRec where
  user_id : String
  agent_id : String
  title : Option String
  created_at : Nat
  updated_at : Nat
  last_message_at : Option Nat
  is_active : Bool
deriving Repr, DecidableEq

/-- A stored message of `messages_db`. -/
structure StoredMessage where
  id : String
  session_id : String
  role : String
  content : String
  agent_id : Option String
  timestamp : Nat
  status : String
deriving Repr, DecidableEq

/-- The module-level state of the sessions router. -/
structure RouteState where
  sessions_db : List (String × SessionRec)
  messages_db : List (String × List StoredMessage)
  active_connections : List (String × Nat)
deriving Repr

/-- JSON rendering of an optional string (`None` becomes `null`). -/
def jsonOfOptStr : Option String → Json
  | some s => Json.str s
  | none => Json.null

/-- JSON rendering of a stored message dict. -/
def jsonOfStoredMessage (m : StoredMessage) : Json :=
  Json.obj
    [("id", Json.str m.id), ("session_id", Json.str m.session_id),
     ("role", Json.str m.role), ("content", Json.str m.content),
     ("agent_id", jsonOfOptStr m.agent_id), ("timestamp", Json.num m.timestamp),
     ("status", Json.str m.status)]

/-- The accept phase of `websocket_endpoint`: close with 4004 (`none`)
when the session is unknown, otherwise record the socket under the
session id — overwriting any previous entry — and send the
`connection` confirmation envelope on the new socket. -/
def websocket_accept (now : Nat) (w : Nat) (session_id : String) (st : RouteState) :
    Option (RouteState × Json) :=
  if (alFind session_id st.sessions_db).isSome then
    some ({ st with active_connections := alSet session_id w st.active_connections },
      Json.obj
        [("type", Json.str "connection"),
         ("payload", Json.obj
           [("status", Json.str "connected"), ("session_id", Json.str session_id)]),
         ("timestamp", Json.num now)])
  else none

/-- One iteration of the receive loop of `websocket_endpoint`, handling
a single inbound frame on socket `w` for `session_id`. `frame = none`
models a `json.JSONDecodeError`; `mid` is the uuid drawn for a stored
message. Returns the new state and the frames written, each tagged
with the socket it is written to (the handler only ever writes to its
own socket `w`). -/
def websocket_handle_frame (now : Nat) (mid : String) (session_id : String) (w : Nat)
    (frame : Option Json) (st : RouteState) : RouteState × List (Nat × Json) :=
  match frame with
  | none =>
    (st, [(w, Json.obj
      [("type", Json.str "error"),
       ("payload", Json.obj
         [("code", Json.str "invalid_json"), ("message", Json.str "Invalid JSON format")]),
       ("timestamp", Json.num now)])])
  | some msg =>
    let mtype := jGetStr msg "type"
    if mtype = "message" then
      let payload := (jGet msg "payload").getD (Json.obj [])
      let content := jGetStr payload "content"
      if content ≠ "" then
        let user_message : StoredMessage :=
          ⟨mid, session_id, "user", content, none, now, "sent"⟩
        let msgs := (alFind session_id st.messages_db).getD []
        let st1 := { st with messages_db := alSet session_id (msgs ++ [user_message]) st.messages_db }
        let st2 := { st1 with sessions_db := alMod session_id (fun sess => { sess with last_message_at := some now, updated_at := now }) st1.sessions_db }
        (st2, [(w, Json.obj
          [("type", Json.str "message"),
           ("payload", jsonOfStoredMessage user_message),
           ("timestamp", Json.num now)])])
      else (st, [])
    else if mtype = "typing" then
      let payload := (jGet msg "payload").getD (Json.obj [])
      (st, [(w, Json.obj
        [("type", Json.str "typing"),
         ("payload", Json.obj
           [("session_id", Json.str session_id),
            ("is_typing", Json.boolean (jGetBool payload "is_typing"))]),
         ("timestamp", Json.num now)])])
    else if mtype = "ping" then
      (st, [(w, Json.obj
        [("type", Json.str "pong"), ("payload", Json.obj []),
         ("timestamp", Json.num now)])])
    else (st, [])

/-- `send_message` (REST `POST /{session_id}/messages`): 404 (`none`)
for an unknown session; otherwise append the message, stamp the
session, and attempt a broadcast to the session's tracked WebSocket if
one is connected. Returns the new state, the stored message and the
attempted socket writes. -/
def send_message (now : Nat) (mid : String) (session_id : String) (role content : String)
    (st : RouteState) : Option (RouteState × StoredMessage × List (Nat × Json)) :=
  match alFind session_id st.sessions_db with
  | none => none
  | some sess =>
    let message : StoredMessage :=
      ⟨mid, session_id, role, content,
       if role = "agent" then some sess.agent_id else none, now, "sent"⟩
    let msgs := (alFind session_id st.messages_db).getD []
    let st1 := { st with messages_db := alSet session_id (msgs ++ [message]) st.messages_db }
    let st2 := { st1 with sessions_db := alSet session_id { sess with last_message_at := some now, updated_at := now } st1.sessions_db }
    let sends :=
      match alFind session_id st2.active_connections with
      | some ws => [(ws, Json.obj
          [("type", Json.str "message"),
           ("payload", jsonOfStoredMessage message),
           ("timestamp", Json.num now)])]
      | none => []
    some (st2, message, sends)

/-- `delete_session` (REST `DELETE /{session_id}`): 404 (`none`) for an
unknown session; otherwise close the session's tracked WebSocket if
any (returned as the closed socket), drop it from the connection map,
and delete the session record and its messages. -/
def delete_session (session_id : String) (st : RouteState) :
    Option (RouteState × Option Nat) :=
  if (alFind session_id st.sessions_db).isSome then
    some ({ sessions_db := alDel session_id st.sessions_db,
            messages_db := alDel session_id st.messages_db,
            active_connections := alDel session_id st.active_connections },
          alFind session_id st.active_connections)
  else none


/-! ### Association-list lemmas -/

theorem alKeys_cons {α : Type} (p : String × α) (rest : List (String × α)) :
    alKeys (p :: rest) = p.1 :: alKeys rest := rfl

theorem alFind_alSet_self {α : Type} (k : String) (v : α) (l : List (String × α)) :
    alFind k (alSet k v l) = some v := by
  induction l with
  | nil => simp [alSet, alFind]
  | cons p rest ih =>
    by_cases h : p.1 = k
    · simp [alSet, h, alFind]
    · simp [alSet, h, alFind, ih]

theorem alFind_alSet_ne {α : Type} {k k2 : String} (v : α) (l : List (String × α))
    (h : k2 ≠ k) : alFind k2 (alSet k v l) = alFind k2 l := by
  have hk : k ≠ k2 := fun hh => h hh.symm
  induction l with
  | nil => simp [alSet, alFind, hk]
  | cons p rest ih =>
    by_cases hp : p.1 = k
    · subst hp
      simp [alSet, alFind, hk]
    · simp [alSet, hp, alFind, ih]

theorem alFind_alDel_self {α : Type} (k : String) (l : List (String × α)) :
    alFind k (alDel k l) = none := by
  induction l with
  | nil => simp [alDel, alFind]
  | cons p rest ih =>
    by_cases h : p.1 = k
    · simp [alDel, h, ih]
    · simp [alDel, h, alFind, ih]

theorem alFind_alDel_ne {α : Type} {k k2 : String} (l : List (String × α))
    (h : k2 ≠ k) : alFind k2 (alDel k l) = alFind k2 l := by
  have hk : k ≠ k2 := fun hh => h hh.symm
  induction l with
  | nil => simp [alDel]
  | cons p rest ih =>
    by_cases hp : p.1 = k
    · subst hp
      simp [alDel, alFind, hk, ih]
    · simp [alDel, hp, alFind, ih]

theorem alFind_alMod_self {α : Type} (k : String) (f : α → α) (l : List (String × α)) :
    alFind k (alMod k f l) = (alFind k l).map f := by
  induction l with
  | nil => simp [alMod, alFind]
  | cons p rest ih =>
    by_cases h : p.1 = k
    · simp [alMod, h, alFind]
    · simp [alMod, h, alFind, ih]

theorem alFind_alMod_ne {α : Type} {k k2 : String} (f : α → α) (l : List (String × α))
    (h : k2 ≠ k) : alFind k2 (alMod k f l) = alFind k2 l := by
  have hk : k ≠ k2 := fun hh => h hh.symm
  induction l with
  | nil => simp [alMod]
  | cons p rest ih =>
    by_cases hp : p.1 = k
    · subst hp
      simp [alMod, alFind, hk, ih]
    · simp [alMod, hp, alFind, ih]

theorem mem_alKeys_iff_isSome {α : Type} (k : String) (l : List (String × α)) :
    k ∈ alKeys l ↔ (alFind k l).isSome := by
  induction l with
  | nil => simp [alKeys, alFind]
  | cons p rest ih =>
    rw [alKeys_cons, List.mem_cons, alFind]
    by_cases hp : p.1 = k
    · simp [hp]
    · have hk : k ≠ p.1 := fun hh => hp hh.symm
      simp [hp, ih, hk]

theorem mem_alKeys_alSet {α : Type} (a k : String) (v : α) (l : List (String × α)) :
    a ∈ alKeys (alSet k v l) ↔ a ∈ alKeys l ∨ a = k := by
  induction l with
  | nil => simp [alSet, alKeys]
  | cons p rest ih =>
    by_cases hp : p.1 = k
    · subst hp
      have he : alSet p.1 v (p :: rest) = (p.1, v) :: rest := by simp [alSet]
      simp only [he, alKeys_cons, List.mem_cons]
      tauto
    · simp only [alSet, if_neg hp, alKeys_cons, List.mem_cons, ih]
      tauto

theorem alKeys_alMod {α : Type} (k : String) (f : α → α) (l : List (String × α)) :
    alKeys (alMod k f l) = alKeys l := by
  induction l with
  | nil => simp [alMod]
  | cons p rest ih =>
    by_cases h : p.1 = k
    · simp [alMod, h, alKeys_cons]
    · simp only [alMod, if_neg h, alKeys_cons, ih]

theorem mem_alKeys_alDel {α : Type} {a k : String} {l : List (String × α)}
    (h : a ∈ alKeys (alDel k l)) : a ∈ alKeys l := by
  induction l with
  | nil => simpa [alDel] using h
  | cons p rest ih =>
    by_cases hp : p.1 = k
    · simp only [alDel, if_pos hp] at h
      exact List.mem_cons.mpr (Or.inr (ih h))
    · simp only [alDel, if_neg hp, alKeys_cons, List.mem_cons] at h ⊢
      rcases h with h | h
      · exact Or.inl h
      · exact Or.inr (ih h)

theorem nodup_alKeys_alSet {α : Type} (k : String) (v : α) {l : List (String × α)}
    (h : (alKeys l).Nodup) : (alKeys (alSet k v l)).Nodup := by
  induction l with
  | nil => simp [alSet, alKeys]
  | cons p rest ih =>
    rw [alKeys_cons, List.nodup_cons] at h
    by_cases hp : p.1 = k
    · subst hp
      rw [alSet, if_pos rfl, alKeys_cons, List.nodup_cons]
      exact h
    · rw [alSet, if_neg hp, alKeys_cons, List.nodup_cons]
      refine ⟨fun hm => ?_, ih h.2⟩
      rcases (mem_alKeys_alSet p.1 k v rest).mp hm with h2 | h2
      · exact h.1 h2
      · exact hp h2

theorem nodup_alKeys_alDel {α : Type} (k : String) {l : List (String × α)}
    (h : (alKeys l).Nodup) : (alKeys (alDel k l)).Nodup := by
  induction l with
  | nil => simp [alDel, alKeys]
  | cons p rest ih =>
    rw [alKeys_cons, List.nodup_cons] at h
    by_cases hp : p.1 = k
    · rw [alDel, if_pos hp]
      exact ih h.2
    · rw [alDel, if_neg hp, alKeys_cons, List.nodup_cons]
      exact ⟨fun hm => h.1 (mem_alKeys_alDel hm), ih h.2⟩

theorem alFind_eq_some_of_mem_nodup {α : Type} {k : String} {v : α} {l : List (String × α)}
    (hnd : (alKeys l).Nodup) (hm : (k, v) ∈ l) : alFind k l = some v := by
  induction l with
  | nil => simp at hm
  | cons p rest ih =>
    rw [alKeys_cons, List.nodup_cons] at hnd
    rcases List.mem_cons.mp hm with h | h
    · subst h
      simp [alFind]
    · have hkm : k ∈ alKeys rest := List.mem_map_of_mem Prod.fst h
      have hk : p.1 ≠ k := fun he => hnd.1 (he ▸ hkm)
      simp [alFind, hk, ih hnd.2 h]

theorem mem_of_alFind_eq_some {α : Type} {k : String} {v : α} {l : List (String × α)}
    (h : alFind k l = some v) : (k, v) ∈ l := by
  induction l with
  | nil => simp [alFind] at h
  | cons p rest ih =>
    cases p with
    | mk a b =>
      by_cases hp : a = k
      · subst hp
        simp only [alFind, if_pos rfl] at h
        injection h with hv
        subst hv
        exact List.mem_cons_self _ _
      · simp only [alFind, if_neg hp] at h
        exact List.mem_cons.mpr (Or.inr (ih h))

theorem mem_alKeys_filter_iff {α : Type} {l : List (String × α)} (q : String × α → Bool)
    (hnd : (alKeys l).Nodup) (c : String) :
    c ∈ alKeys (l.filter q) ↔ ∃ v, alFind c l = some v ∧ q (c, v) = true := by
  constructor
  · intro hm
    have hm2 : c ∈ List.map Prod.fst (l.filter q) := hm
    rcases List.mem_map.mp hm2 with ⟨p, hp, hpc⟩
    rcases List.mem_filter.mp hp with ⟨hpl, hq⟩
    cases p with
    | mk a b =>
      simp only at hpc
      subst hpc
      exact ⟨b, alFind_eq_some_of_mem_nodup hnd hpl, hq⟩
  · rintro ⟨v, hfind, hq⟩
    have : (c, v) ∈ l.filter q := List.mem_filter.mpr ⟨mem_of_alFind_eq_some hfind, hq⟩
    exact List.mem_map.mpr ⟨(c, v), this, rfl⟩


/-! ### Operation characterizations -/

theorem dropFromSession_active (c : String) (sid : Option String) (st : ManagerState) :
    (dropFromSession c sid st).active_connections = st.active_connections := by
  unfold dropFromSession
  rcases sid with _ | s
  · rfl
  · dsimp only
    (repeat' split) <;> rfl

theorem dropFromSession_metadata (c : String) (sid : Option String) (st : ManagerState) :
    (dropFromSession c sid st).connection_metadata = st.connection_metadata := by
  unfold dropFromSession
  rcases sid with _ | s
  · rfl
  · dsimp only
    (repeat' split) <;> rfl

theorem dropFromSession_delivered (c : String) (sid : Option String) (st : ManagerState) :
    (dropFromSession c sid st).delivered = st.delivered := by
  unfold dropFromSession
  rcases sid with _ | s
  · rfl
  · dsimp only
    (repeat' split) <;> rfl

theorem dropFromSession_none (c : String) (st : ManagerState) :
    dropFromSession c none st = st := rfl

theorem dropFromSession_blank (c : String) (st : ManagerState) :
    dropFromSession c (some "") st = st := by
  unfold dropFromSession
  dsimp only
  simp

theorem dropFromSession_noEntry (c s : String) (st : ManagerState) (hs : s ≠ "")
    (h : alFind s st.session_connections = none) :
    dropFromSession c (some s) st = st := by
  unfold dropFromSession
  dsimp only
  rw [if_pos hs, h]

theorem dropFromSession_emptied (c s : String) (conns : List String) (st : ManagerState)
    (hs : s ≠ "") (h : alFind s st.session_connections = some conns)
    (he : conns.filter (fun x => decide (x ≠ c)) = []) :
    dropFromSession c (some s) st =
      { st with session_connections := alDel s st.session_connections } := by
  unfold dropFromSession
  dsimp only
  rw [if_pos hs, h]
  exact if_pos he

theorem dropFromSession_kept (c s : String) (conns : List String) (st : ManagerState)
    (hs : s ≠ "") (h : alFind s st.session_connections = some conns)
    (he : conns.filter (fun x => decide (x ≠ c)) ≠ []) :
    dropFromSession c (some s) st =
      { st with session_connections := alSet s (conns.filter (fun x => decide (x ≠ c))) st.session_connections } := by
  unfold dropFromSession
  dsimp only
  rw [if_pos hs, h]
  simp only [if_neg he]

theorem disconnect_of_notActive {c : String} {st : ManagerState}
    (h : alFind c st.active_connections = none) : disconnect c st = st := by
  unfold disconnect
  simp [h]

theorem disconnect_fields {c : String} {st : ManagerState}
    (h : (alFind c st.active_connections).isSome) :
    (disconnect c st).active_connections = alDel c st.active_connections ∧
    (disconnect c st).connection_metadata = alDel c st.connection_metadata ∧
    (disconnect c st).delivered = st.delivered := by
  unfold disconnect
  rw [if_pos h]
  refine ⟨?_, ?_, ?_⟩
  · show alDel c (dropFromSession _ _ _).active_connections = _
    rw [dropFromSession_active]
  · show alDel c (dropFromSession _ _ _).connection_metadata = _
    rw [dropFromSession_metadata]
  · show (dropFromSession _ _ _).delivered = _
    rw [dropFromSession_delivered]

theorem disconnect_session {c : String} {st : ManagerState}
    (h : (alFind c st.active_connections).isSome) :
    (disconnect c st).session_connections =
      (dropFromSession c ((alFind c st.connection_metadata).bind (fun m => m.session_id)) st).session_connections := by
  unfold disconnect
  rw [if_pos h]

theorem send_personal_notActive {t : Nat → Bool} {now : Nat} {c : String} {msg : Json}
    {st : ManagerState} (h : alFind c st.active_connections = none) :
    send_personal_message t now c msg st = (false, st) := by
  unfold send_personal_message
  rw [h]

theorem send_personal_fail {t : Nat → Bool} {now : Nat} {c : String} {msg : Json}
    {st : ManagerState} {w : Nat} (hw : alFind c st.active_connections = some w)
    (ht : t w = false) :
    send_personal_message t now c msg st = (false, disconnect c st) := by
  unfold send_personal_message
  rw [hw]
  simp [ht]

theorem send_personal_ok {t : Nat → Bool} {now : Nat} {c : String} {msg : Json}
    {st : ManagerState} {w : Nat} (hw : alFind c st.active_connections = some w)
    (ht : t w = true) (hm : (alFind c st.connection_metadata).isSome) :
    send_personal_message t now c msg st =
      (true, { st with
        delivered := st.delivered ++ [(w, msg)],
        connection_metadata := alMod c (fun m => { m with last_activity := now }) st.connection_metadata }) := by
  unfold send_personal_message
  rw [hw]
  simp only [ht, if_true]
  rw [if_pos hm]

theorem send_personal_ok_noMeta {t : Nat → Bool} {now : Nat} {c : String} {msg : Json}
    {st : ManagerState} {w : Nat} (hw : alFind c st.active_connections = some w)
    (ht : t w = true) (hm : ¬ (alFind c st.connection_metadata).isSome) :
    send_personal_message t now c msg st =
      (true, { st with delivered := st.delivered ++ [(w, msg)] }) := by
  unfold send_personal_message
  rw [hw]
  simp only [ht, if_true]
  rw [if_neg hm]


/-! ### The registry invariant -/

/-- Well-formedness of a manager state: duplicate-free key sets, the
two registries keyed by the same connection ids, and every session
entry non-empty, duplicate-free, and made of connections whose
metadata points back at exactly that session. -/
structure Inv (st : ManagerState) : Prop where
  activeNodup : (alKeys st.active_connections).Nodup
  metaNodup : (alKeys st.connection_metadata).Nodup
  sessNodup : (alKeys st.session_connections).Nodup
  activeMeta : ∀ c, (alFind c st.active_connections).isSome ↔ (alFind c st.connection_metadata).isSome
  sessSound : ∀ s conns, alFind s st.session_connections = some conns →
    s ≠ "" ∧ conns ≠ [] ∧ conns.Nodup ∧
    ∀ c, c ∈ conns → ∃ m, alFind c st.connection_metadata = some m ∧ m.session_id = some s

/-- The empty manager is well-formed. -/
theorem Inv_emptyManager : Inv emptyManager := by
  refine ⟨by simp [emptyManager, alKeys], by simp [emptyManager, alKeys],
    by simp [emptyManager, alKeys], ?_, ?_⟩
  · intro c
    simp [emptyManager, alFind]
  · intro s conns h
    simp [emptyManager, alFind] at h

/-- Session members other than the one whose metadata points at a
different session keep their metadata after a connection's entry is
deleted. -/
theorem sessSound_del_meta {st : ManagerState} (hi : Inv st) {c : String} {mc : ConnMeta}
    (hmc : alFind c st.connection_metadata = some mc)
    {s : String} {conns : List String}
    (hs : alFind s st.session_connections = some conns)
    (hcs : mc.session_id ≠ some s) :
    ∀ c2, c2 ∈ conns →
      ∃ m, alFind c2 (alDel c st.connection_metadata) = some m ∧ m.session_id = some s := by
  intro c2 hc2
  obtain ⟨-, -, -, hmem⟩ := hi.sessSound s conns hs
  obtain ⟨m, hfm, hsid⟩ := hmem c2 hc2
  have hc2c : c2 ≠ c := by
    intro he
    subst he
    rw [hmc] at hfm
    injection hfm with h
    subst h
    exact hcs hsid
  exact ⟨m, by rw [alFind_alDel_ne _ hc2c]; exact hfm, hsid⟩

/-- `disconnect` preserves well-formedness. -/
theorem Inv_disconnect (c : String) {st : ManagerState} (hi : Inv st) : Inv (disconnect c st) := by
  by_cases hc : (alFind c st.active_connections).isSome
  case neg =>
    rw [disconnect_of_notActive (Option.not_isSome_iff_eq_none.mp hc)]
    exact hi
  case pos =>
  obtain ⟨ha, hm, -⟩ := disconnect_fields hc
  have hsess := disconnect_session hc
  obtain ⟨mc, hmc⟩ := Option.isSome_iff_exists.mp ((hi.activeMeta c).mp hc)
  rw [hmc] at hsess
  simp only [Option.some_bind] at hsess
  have hAM : ∀ c2, (alFind c2 (disconnect c st).active_connections).isSome ↔
      (alFind c2 (disconnect c st).connection_metadata).isSome := by
    intro c2
    rw [ha, hm]
    by_cases h2 : c2 = c
    · subst h2
      rw [alFind_alDel_self, alFind_alDel_self]
      exact Iff.rfl
    · rw [alFind_alDel_ne _ h2, alFind_alDel_ne _ h2]
      exact hi.activeMeta c2
  have hAN : (alKeys (disconnect c st).active_connections).Nodup := by
    rw [ha]
    exact nodup_alKeys_alDel c hi.activeNodup
  have hMN : (alKeys (disconnect c st).connection_metadata).Nodup := by
    rw [hm]
    exact nodup_alKeys_alDel c hi.metaNodup
  rcases hsid : mc.session_id with _ | s0
  · rw [hsid, dropFromSession_none] at hsess
    refine ⟨hAN, hMN, by rw [hsess]; exact hi.sessNodup, hAM, ?_⟩
    intro s conns hs
    rw [hsess] at hs
    obtain ⟨h0, h1, h2, -⟩ := hi.sessSound s conns hs
    refine ⟨h0, h1, h2, ?_⟩
    rw [hm]
    exact sessSound_del_meta hi hmc hs (by rw [hsid]; simp)
  · by_cases hs0 : s0 = ""
    · subst hs0
      rw [hsid, dropFromSession_blank] at hsess
      refine ⟨hAN, hMN, by rw [hsess]; exact hi.sessNodup, hAM, ?_⟩
      intro s conns hs
      rw [hsess] at hs
      obtain ⟨h0, h1, h2, -⟩ := hi.sessSound s conns hs
      refine ⟨h0, h1, h2, ?_⟩
      rw [hm]
      refine sessSound_del_meta hi hmc hs ?_
      rw [hsid]
      intro he
      injection he with he2
      exact h0 he2.symm
    · rcases hfs0 : alFind s0 st.session_connections with _ | conns0
      · rw [hsid, dropFromSession_noEntry c s0 st hs0 hfs0] at hsess
        refine ⟨hAN, hMN, by rw [hsess]; exact hi.sessNodup, hAM, ?_⟩
        intro s conns hs
        rw [hsess] at hs
        obtain ⟨h0, h1, h2, -⟩ := hi.sessSound s conns hs
        refine ⟨h0, h1, h2, ?_⟩
        rw [hm]
        refine sessSound_del_meta hi hmc hs ?_
        rw [hsid]
        intro he
        injection he with he2
        subst he2
        rw [hs] at hfs0
        exact Option.noConfusion hfs0
      · by_cases he : conns0.filter (fun x => decide (x ≠ c)) = []
        · rw [hsid, dropFromSession_emptied c s0 conns0 st hs0 hfs0 he] at hsess
          refine ⟨hAN, hMN, by rw [hsess]; exact nodup_alKeys_alDel s0 hi.sessNodup, hAM, ?_⟩
          intro s conns hs
          rw [hsess] at hs
          have hss : s ≠ s0 := by
            intro hexact
            subst hexact
            rw [alFind_alDel_self] at hs
            exact Option.noConfusion hs
          rw [alFind_alDel_ne _ hss] at hs
          obtain ⟨h0, h1, h2, -⟩ := hi.sessSound s conns hs
          refine ⟨h0, h1, h2, ?_⟩
          rw [hm]
          refine sessSound_del_meta hi hmc hs ?_
          rw [hsid]
          intro hee
          injection hee with he2
          exact hss he2.symm
        · rw [hsid, dropFromSession_kept c s0 conns0 st hs0 hfs0 he] at hsess
          refine ⟨hAN, hMN, by rw [hsess]; exact nodup_alKeys_alSet s0 _ hi.sessNodup, hAM, ?_⟩
          intro s conns hs
          rw [hsess] at hs
          by_cases hss : s = s0
          · subst hss
            rw [alFind_alSet_self] at hs
            injection hs with hconns
            subst hconns
            obtain ⟨h0, h1, h2, hmem⟩ := hi.sessSound s conns0 hfs0
            refine ⟨hs0, he, h2.filter _, ?_⟩
            intro c2 hc2
            rw [List.mem_filter] at hc2
            have hc2c : c2 ≠ c := of_decide_eq_true hc2.2
            obtain ⟨m, hfm, hsid2⟩ := hmem c2 hc2.1
            rw [hm]
            exact ⟨m, by rw [alFind_alDel_ne _ hc2c]; exact hfm, hsid2⟩
          · rw [alFind_alSet_ne _ _ hss] at hs
            obtain ⟨h0, h1, h2, -⟩ := hi.sessSound s conns hs
            refine ⟨h0, h1, h2, ?_⟩
            rw [hm]
            refine sessSound_del_meta hi hmc hs ?_
            rw [hsid]
            intro hee
            injection hee with he2
            exact hss he2.symm


/-! ### Invariant preservation by each operation -/

theorem Inv_send (t : Nat → Bool) (now : Nat) (c : String) (msg : Json) {st : ManagerState}
    (hi : Inv st) : Inv (send_personal_message t now c msg st).2 := by
  rcases hw : alFind c st.active_connections with _ | w
  · rw [send_personal_notActive hw]
    exact hi
  · rcases ht : t w with _ | _
    · rw [send_personal_fail hw ht]
      exact Inv_disconnect c hi
    · by_cases hm : (alFind c st.connection_metadata).isSome
      · rw [send_personal_ok hw ht hm]
        refine ⟨hi.activeNodup, ?_, hi.sessNodup, ?_, ?_⟩
        · show (alKeys (alMod c (fun m => { m with last_activity := now }) st.connection_metadata)).Nodup
          rw [alKeys_alMod]
          exact hi.metaNodup
        · intro c2
          show (alFind c2 st.active_connections).isSome ↔
            (alFind c2 (alMod c (fun m => { m with last_activity := now }) st.connection_metadata)).isSome
          by_cases h2 : c2 = c
          · subst h2
            rw [alFind_alMod_self]
            rcases hx : alFind c2 st.connection_metadata with _ | m
            · rw [hx] at hm
              simp at hm
            · simp [hw]
          · rw [alFind_alMod_ne _ _ h2]
            exact hi.activeMeta c2
        · intro s conns hs
          obtain ⟨h0, h1, h2, hmem⟩ := hi.sessSound s conns hs
          refine ⟨h0, h1, h2, ?_⟩
          intro c2 hc2
          obtain ⟨m, hfm, hsid⟩ := hmem c2 hc2
          by_cases he : c2 = c
          · subst he
            refine ⟨{ m with last_activity := now }, ?_, hsid⟩
            show alFind c2 (alMod c2 (fun m => { m with last_activity := now }) st.connection_metadata) = _
            rw [alFind_alMod_self, hfm]
            rfl
          · exact ⟨m, by rw [alFind_alMod_ne _ _ he]; exact hfm, hsid⟩
      · rw [send_personal_ok_noMeta hw ht hm]
        exact ⟨hi.activeNodup, hi.metaNodup, hi.sessNodup, hi.activeMeta, hi.sessSound⟩

theorem addConn_ne_nil (c : String) (l : List String) : addConn c l ≠ [] := by
  unfold addConn
  split
  · rename_i hmem
    exact List.ne_nil_of_mem hmem
  · simp

theorem addConn_nodup {c : String} {l : List String} (h : l.Nodup) : (addConn c l).Nodup := by
  unfold addConn
  split
  · exact h
  · rename_i hne
    simp [List.nodup_append, h, hne]

theorem mem_addConn {a c : String} {l : List String} : a ∈ addConn c l ↔ a ∈ l ∨ a = c := by
  unfold addConn
  split
  · rename_i hmem
    constructor
    · exact Or.inl
    · rintro (h | h)
      · exact h
      · subst h
        exact hmem
  · simp

theorem Inv_attach (c : String) (sid : Option String) {st : ManagerState} (hi : Inv st)
    {mc : ConnMeta} (hmc : alFind c st.connection_metadata = some mc)
    (hsid : mc.session_id = sid) : Inv (attachToSession c sid st) := by
  rcases sid with _ | s
  · exact hi
  · by_cases hs : s = ""
    · subst hs
      unfold attachToSession
      dsimp only
      rw [if_neg (by simp)]
      exact hi
    · rcases hfs : alFind s st.session_connections with _ | conns
      · have heq : attachToSession c (some s) st =
            { st with session_connections := alSet s [c] st.session_connections } := by
          unfold attachToSession
          dsimp only
          rw [if_pos hs, hfs]
        rw [heq]
        refine ⟨hi.activeNodup, hi.metaNodup, nodup_alKeys_alSet s _ hi.sessNodup, hi.activeMeta, ?_⟩
        intro s2 conns2 hs2
        by_cases hss : s2 = s
        · subst hss
          rw [alFind_alSet_self] at hs2
          injection hs2 with hc2
          subst hc2
          refine ⟨hs, by simp, by simp, ?_⟩
          intro c2 hc2
          rw [List.mem_singleton] at hc2
          subst hc2
          exact ⟨mc, hmc, hsid⟩
        · rw [alFind_alSet_ne _ _ hss] at hs2
          exact hi.sessSound s2 conns2 hs2
      · have heq : attachToSession c (some s) st =
            { st with session_connections := alSet s (addConn c conns) st.session_connections } := by
          unfold attachToSession
          dsimp only
          rw [if_pos hs, hfs]
        rw [heq]
        obtain ⟨h0, h1, h2, hmem⟩ := hi.sessSound s conns hfs
        refine ⟨hi.activeNodup, hi.metaNodup, nodup_alKeys_alSet s _ hi.sessNodup, hi.activeMeta, ?_⟩
        intro s2 conns2 hs2
        by_cases hss : s2 = s
        · subst hss
          rw [alFind_alSet_self] at hs2
          injection hs2 with hc2
          subst hc2
          refine ⟨hs, addConn_ne_nil c conns, addConn_nodup h2, ?_⟩
          intro c2 hc2
          rcases mem_addConn.mp hc2 with h | h
          · exact hmem c2 h
          · subst h
            exact ⟨mc, hmc, hsid⟩
        · rw [alFind_alSet_ne _ _ hss] at hs2
          exact hi.sessSound s2 conns2 hs2

theorem Inv_connect (t : Nat → Bool) (now w : Nat) (c : String) (sid : Option String)
    {st : ManagerState} (hfresh : alFind c st.active_connections = none) (hi : Inv st) :
    Inv (connect t now w c sid st) := by
  have hmfresh : alFind c st.connection_metadata = none := by
    rcases hmm : alFind c st.connection_metadata with _ | m
    · rfl
    · have := (hi.activeMeta c).mpr (by rw [hmm]; rfl)
      rw [hfresh] at this
      simp at this
  have hi1 : Inv { st with
      active_connections := alSet c w st.active_connections,
      connection_metadata := alSet c ⟨sid, now, now⟩ st.connection_metadata } := by
    refine ⟨nodup_alKeys_alSet c w hi.activeNodup, nodup_alKeys_alSet c _ hi.metaNodup,
      hi.sessNodup, ?_, ?_⟩
    · intro c2
      show (alFind c2 (alSet c w st.active_connections)).isSome ↔
        (alFind c2 (alSet c (⟨sid, now, now⟩ : ConnMeta) st.connection_metadata)).isSome
      by_cases h2 : c2 = c
      · subst h2
        rw [alFind_alSet_self, alFind_alSet_self]
        exact Iff.rfl
      · rw [alFind_alSet_ne _ _ h2, alFind_alSet_ne _ _ h2]
        exact hi.activeMeta c2
    · intro s conns hs
      obtain ⟨h0, h1, h2, hmem⟩ := hi.sessSound s conns hs
      refine ⟨h0, h1, h2, ?_⟩
      intro c2 hc2
      obtain ⟨m, hfm, hsid2⟩ := hmem c2 hc2
      have h2c : c2 ≠ c := by
        intro he
        subst he
        rw [hmfresh] at hfm
        exact Option.noConfusion hfm
      exact ⟨m, by rw [alFind_alSet_ne _ _ h2c]; exact hfm, hsid2⟩
  have hi2 := Inv_attach c sid hi1 (alFind_alSet_self c _ st.connection_metadata) rfl
  exact Inv_send t now c (ackMessage c sid now) hi2

theorem Inv_sendLoop (t : Nat → Bool) (now : Nat) (msg : Json) :
    ∀ (conns : List String) {st : ManagerState}, Inv st → Inv (sendLoop t now msg conns st).2 := by
  intro conns
  induction conns with
  | nil => intro st hi; exact hi
  | cons c rest ih =>
    intro st hi
    unfold sendLoop
    dsimp only
    exact ih (Inv_send t now c msg hi)

theorem Inv_send_to_session (t : Nat → Bool) (now : Nat) (s : String) (msg : Json)
    {st : ManagerState} (hi : Inv st) : Inv (send_to_session t now s msg st).2 := by
  unfold send_to_session
  rcases alFind s st.session_connections with _ | conns
  · exact hi
  · exact Inv_sendLoop t now msg conns hi

theorem Inv_cleanupLoop (now timeout_seconds : Nat) :
    ∀ (items : List (String × ConnMeta)) {st : ManagerState}, Inv st →
      Inv (cleanupLoop now timeout_seconds items st).2 := by
  intro items
  induction items with
  | nil => intro st hi; exact hi
  | cons it rest ih =>
    intro st hi
    unfold cleanupLoop
    split
    · dsimp only
      exact ih (Inv_disconnect it.1 hi)
    · exact ih hi

theorem Inv_cleanup (now timeout_seconds : Nat) {st : ManagerState} (hi : Inv st) :
    Inv (cleanup_inactive_connections now timeout_seconds st).2 :=
  Inv_cleanupLoop now timeout_seconds st.connection_metadata hi

theorem Inv_of_reachableFresh {st : ManagerState} (h : ReachableFresh st) : Inv st := by
  induction h with
  | empty => exact Inv_emptyManager
  | connect t now w c sid hfresh hr ih => exact Inv_connect t now w c sid hfresh ih
  | disconnect c hr ih => exact Inv_disconnect c ih
  | send t now c msg hr ih => exact Inv_send t now c msg ih
  | sendSession t now s msg hr ih => exact Inv_send_to_session t now s msg ih
  | sweep now timeout_seconds hr ih => exact Inv_cleanup now timeout_seconds ih

/-! ### The no-empty-session invariant holds even for arbitrary call
sequences (no freshness assumption on `connect`). -/

theorem NoEmpty_dropFromSession (c : String) (sid : Option String) {st : ManagerState}
    (h : NoEmptySession st) : ∀ s conns,
      alFind s (dropFromSession c sid st).session_connections = some conns → conns ≠ [] := by
  rcases sid with _ | s0
  · rw [dropFromSession_none]
    exact h
  · by_cases hs0 : s0 = ""
    · subst hs0
      rw [dropFromSession_blank]
      exact h
    · rcases hfs : alFind s0 st.session_connections with _ | conns0
      · rw [dropFromSession_noEntry c s0 st hs0 hfs]
        exact h
      · by_cases he : conns0.filter (fun x => decide (x ≠ c)) = []
        · rw [dropFromSession_emptied c s0 conns0 st hs0 hfs he]
          intro s conns hs
          by_cases hss : s = s0
          · subst hss
            rw [alFind_alDel_self] at hs
            exact Option.noConfusion hs
          · rw [alFind_alDel_ne _ hss] at hs
            exact h s conns hs
        · rw [dropFromSession_kept c s0 conns0 st hs0 hfs he]
          intro s conns hs
          by_cases hss : s = s0
          · subst hss
            rw [alFind_alSet_self] at hs
            injection hs with h2
            subst h2
            exact he
          · rw [alFind_alSet_ne _ _ hss] at hs
            exact h s conns hs

theorem NoEmpty_disconnect (c : String) {st : ManagerState} (h : NoEmptySession st) :
    NoEmptySession (disconnect c st) := by
  by_cases hc : (alFind c st.active_connections).isSome
  · intro s conns hs
    rw [disconnect_session hc] at hs
    exact NoEmpty_dropFromSession c _ h s conns hs
  · rw [disconnect_of_notActive (Option.not_isSome_iff_eq_none.mp hc)]
    exact h

theorem NoEmpty_send (t : Nat → Bool) (now : Nat) (c : String) (msg : Json) {st : ManagerState}
    (h : NoEmptySession st) : NoEmptySession (send_personal_message t now c msg st).2 := by
  rcases hw : alFind c st.active_connections with _ | w
  · rw [send_personal_notActive hw]
    exact h
  · rcases ht : t w with _ | _
    · rw [send_personal_fail hw ht]
      exact NoEmpty_disconnect c h
    · by_cases hm : (alFind c st.connection_metadata).isSome
      · rw [send_personal_ok hw ht hm]
        exact h
      · rw [send_personal_ok_noMeta hw ht hm]
        exact h

theorem NoEmpty_attach (c : String) (sid : Option String) {st : ManagerState}
    (h : NoEmptySession st) : NoEmptySession (attachToSession c sid st) := by
  rcases sid with _ | s0
  · exact h
  · by_cases hs0 : s0 = ""
    · subst hs0
      unfold attachToSession
      dsimp only
      rw [if_neg (by simp)]
      exact h
    · rcases hfs : alFind s0 st.session_connections with _ | conns0
      · have heq : attachToSession c (some s0) st =
            { st with session_connections := alSet s0 [c] st.session_connections } := by
          unfold attachToSession
          dsimp only
          rw [if_pos hs0, hfs]
        rw [heq]
        intro s conns hs
        by_cases hss : s = s0
        · subst hss
          rw [alFind_alSet_self] at hs
          injection hs with h2
          subst h2
          simp
        · rw [alFind_alSet_ne _ _ hss] at hs
          exact h s conns hs
      · have heq : attachToSession c (some s0) st =
            { st with session_connections := alSet s0 (addConn c conns0) st.session_connections } := by
          unfold attachToSession
          dsimp only
          rw [if_pos hs0, hfs]
        rw [heq]
        intro s conns hs
        by_cases hss : s = s0
        · subst hss
          rw [alFind_alSet_self] at hs
          injection hs with h2
          subst h2
          exact addConn_ne_nil c conns0
        · rw [alFind_alSet_ne _ _ hss] at hs
          exact h s conns hs

theorem NoEmpty_connect (t : Nat → Bool) (now w : Nat) (c : String) (sid : Option String)
    {st : ManagerState} (h : NoEmptySession st) : NoEmptySession (connect t now w c sid st) := by
  have h1 : NoEmptySession { st with
      active_connections := alSet c w st.active_connections,
      connection_metadata := alSet c ⟨sid, now, now⟩ st.connection_metadata } := h
  exact NoEmpty_send t now c (ackMessage c sid now) (NoEmpty_attach c sid h1)

theorem NoEmpty_sendLoop (t : Nat → Bool) (now : Nat) (msg : Json) :
    ∀ (conns : List String) {st : ManagerState}, NoEmptySession st →
      NoEmptySession (sendLoop t now msg conns st).2 := by
  intro conns
  induction conns with
  | nil => intro st h; exact h
  | cons c rest ih =>
    intro st h
    unfold sendLoop
    dsimp only
    exact ih (NoEmpty_send t now c msg h)

theorem NoEmpty_send_to_session (t : Nat → Bool) (now : Nat) (s : String) (msg : Json)
    {st : ManagerState} (h : NoEmptySession st) :
    NoEmptySession (send_to_session t now s msg st).2 := by
  unfold send_to_session
  rcases alFind s st.session_connections with _ | conns
  · exact h
  · exact NoEmpty_sendLoop t now msg conns h

theorem NoEmpty_cleanupLoop (now timeout_seconds : Nat) :
    ∀ (items : List (String × ConnMeta)) {st : ManagerState}, NoEmptySession st →
      NoEmptySession (cleanupLoop now timeout_seconds items st).2 := by
  intro items
  induction items with
  | nil => intro st h; exact h
  | cons it rest ih =>
    intro st h
    unfold cleanupLoop
    split
    · dsimp only
      exact ih (NoEmpty_disconnect it.1 h)
    · exact ih h

theorem NoEmpty_cleanup (now timeout_seconds : Nat) {st : ManagerState}
    (h : NoEmptySession st) :
    NoEmptySession (cleanup_inactive_connections now timeout_seconds st).2 :=
  NoEmpty_cleanupLoop now timeout_seconds st.connection_metadata h

theorem NoEmpty_of_reachable {st : ManagerState} (h : Reachable st) : NoEmptySession st := by
  induction h with
  | empty => intro s conns hs; simp [emptyManager, alFind] at hs
  | connect t now w c sid hr ih => exact NoEmpty_connect t now w c sid ih
  | disconnect c hr ih => exact NoEmpty_disconnect c ih
  | send t now c msg hr ih => exact NoEmpty_send t now c msg ih
  | sendSession t now s msg hr ih => exact NoEmpty_send_to_session t now s msg ih
  | sweep now timeout_seconds hr ih => exact NoEmpty_cleanup now timeout_seconds ih


/-! ### Exactness of the inactivity sweep -/

theorem disconnectAll_cons (it : String × ConnMeta) (l : List (String × ConnMeta))
    (st : ManagerState) : disconnectAll (it :: l) st = disconnectAll l (disconnect it.1 st) := rfl

theorem cleanupLoop_spec (now timeout_seconds : Nat) :
    ∀ (items : List (String × ConnMeta)) (st : ManagerState),
    cleanupLoop now timeout_seconds items st =
      ((items.filter (fun it => decide ((now : Int) - (it.2.last_activity : Int) > (timeout_seconds : Int)))).length,
       disconnectAll (items.filter (fun it => decide ((now : Int) - (it.2.last_activity : Int) > (timeout_seconds : Int)))) st) := by
  intro items
  induction items with
  | nil => intro st; rfl
  | cons it rest ih =>
    intro st
    unfold cleanupLoop
    by_cases hp : (now : Int) - (it.2.last_activity : Int) > (timeout_seconds : Int)
    · rw [if_pos hp]
      dsimp only
      rw [ih]
      simp [List.filter_cons, hp, disconnectAll_cons]
    · rw [if_neg hp]
      rw [ih]
      simp [List.filter_cons, hp]

theorem disconnectAll_find :
    ∀ (items : List (String × ConnMeta)) {st : ManagerState},
    (alKeys items).Nodup →
    (∀ it, it ∈ items → (alFind it.1 st.active_connections).isSome) →
    ∀ c,
      (alFind c (disconnectAll items st).active_connections =
        if c ∈ alKeys items then none else alFind c st.active_connections) ∧
      (alFind c (disconnectAll items st).connection_metadata =
        if c ∈ alKeys items then none else alFind c st.connection_metadata) := by
  intro items
  induction items with
  | nil =>
    intro st hnd hact c
    constructor <;> simp [disconnectAll, alKeys]
  | cons it rest ih =>
    intro st hnd hact c
    rw [alKeys_cons, List.nodup_cons] at hnd
    have hit : (alFind it.1 st.active_connections).isSome := hact it (List.mem_cons_self _ _)
    obtain ⟨ha, hm, -⟩ := disconnect_fields hit
    have hact2 : ∀ it2, it2 ∈ rest → (alFind it2.1 (disconnect it.1 st).active_connections).isSome := by
      intro it2 hit2
      rw [ha]
      have hne : it2.1 ≠ it.1 := by
        intro he
        exact hnd.1 (he ▸ List.mem_map_of_mem Prod.fst hit2)
      rw [alFind_alDel_ne _ hne]
      exact hact it2 (List.mem_cons_of_mem _ hit2)
    obtain ⟨hrA, hrM⟩ := ih hnd.2 hact2 c
    rw [disconnectAll_cons]
    have hmemc : c ∈ alKeys (it :: rest) ↔ c = it.1 ∨ c ∈ alKeys rest := by
      rw [alKeys_cons, List.mem_cons]
    by_cases h1 : c = it.1
    · have hcr : c ∉ alKeys rest := by
        rw [h1]
        exact hnd.1
      constructor
      · rw [hrA, if_neg hcr, ha, if_pos (hmemc.mpr (Or.inl h1)), h1, alFind_alDel_self]
      · rw [hrM, if_neg hcr, hm, if_pos (hmemc.mpr (Or.inl h1)), h1, alFind_alDel_self]
    · by_cases h2 : c ∈ alKeys rest
      · constructor
        · rw [hrA, if_pos h2, if_pos (hmemc.mpr (Or.inr h2))]
        · rw [hrM, if_pos h2, if_pos (hmemc.mpr (Or.inr h2))]
      · have h3 : c ∉ alKeys (it :: rest) := by
          rw [hmemc]
          rintro (h | h)
          · exact h1 h
          · exact h2 h
        constructor
        · rw [hrA, if_neg h2, ha, alFind_alDel_ne _ h1, if_neg h3]
        · rw [hrM, if_neg h2, hm, alFind_alDel_ne _ h1, if_neg h3]


/-! ### Concrete fixtures for witnesses and counterexamples -/

/-- A transport on which every send succeeds. -/
def transportOk : Nat → Bool := fun _ => true

/-- A transport that fails exactly on WebSocket 1. -/
def transportFail1 : Nat → Bool := fun w => decide (w ≠ 1)

/-- Connections "c1" (socket 1) and "c2" (socket 2) attached to session "s1". -/
def twoConnState : ManagerState :=
  connect transportOk 0 2 "c2" (some "s1") (connect transportOk 0 1 "c1" (some "s1") emptyManager)

/-- A session record used in route-layer scenarios. -/
def demoSession : SessionRec := ⟨"u1", "a1", none, 0, 0, none, true⟩

/-- Route state: session "s1" exists with an empty log and socket 2 tracked. -/
def demoRoute : RouteState := ⟨[("s1", demoSession)], [("s1", [])], [("s1", 2)]⟩

/-- The inbound frame `{"type":"message","payload":{"content":""}}`. -/
def emptyContentFrame : Json :=
  Json.obj [("type", Json.str "message"), ("payload", Json.obj [("content", Json.str "")])]

/-- The inbound frame `{"type":"typing","payload":{"is_typing":true}}`. -/
def typingTrueFrame : Json :=
  Json.obj [("type", Json.str "typing"), ("payload", Json.obj [("is_typing", Json.boolean true)])]

/-! ### Claims -/

/-- C4: `disconnect` is idempotent, and on an id absent from
`active_connections` it leaves the whole state (all three registries)
unchanged. -/
theorem claim_C4_disconnect_idempotent (st : ManagerState) (c : String) :
    disconnect c (disconnect c st) = disconnect c st ∧
    (alFind c st.active_connections = none → disconnect c st = st) := by
  constructor
  · by_cases hc : (alFind c st.active_connections).isSome
    · obtain ⟨ha, -, -⟩ := disconnect_fields hc
      apply disconnect_of_notActive
      rw [ha, alFind_alDel_self]
    · rw [disconnect_of_notActive (Option.not_isSome_iff_eq_none.mp hc),
        disconnect_of_notActive (Option.not_isSome_iff_eq_none.mp hc)]
  · exact disconnect_of_notActive

/-- C4 witness: idempotence evaluated on the two-connection state and
the no-op on its unknown id "ghost". -/
theorem claim_C4_witness :
    (disconnect "c1" (disconnect "c1" twoConnState) = disconnect "c1" twoConnState ∧
      (alFind "c1" twoConnState.active_connections = none → disconnect "c1" twoConnState = twoConnState)) ∧
    (disconnect "ghost" (disconnect "ghost" twoConnState) = disconnect "ghost" twoConnState ∧
      (alFind "ghost" twoConnState.active_connections = none → disconnect "ghost" twoConnState = twoConnState)) :=
  ⟨claim_C4_disconnect_idempotent twoConnState "c1",
   claim_C4_disconnect_idempotent twoConnState "ghost"⟩

/-- C9: `send_personal_message` on a connection id absent from
`active_connections` returns `False` and leaves the state entirely
unchanged (no self-pruning `disconnect` is reached). -/
theorem claim_C9_send_unknown_noop (t : Nat → Bool) (now : Nat) (c : String) (msg : Json)
    (st : ManagerState) (h : alFind c st.active_connections = none) :
    send_personal_message t now c msg st = (false, st) :=
  send_personal_notActive h

/-- C9 witness: sending to the unknown id "ghost" on the two-connection
state. -/
theorem claim_C9_witness :
    send_personal_message transportOk 5 "ghost" (Json.str "hello") twoConnState =
      (false, twoConnState) :=
  claim_C9_send_unknown_noop transportOk 5 "ghost" (Json.str "hello") twoConnState rfl

/-- C6 counterexample: on the frame
`{"type":"message","payload":{"content":""}}` the handler sends nothing
at all — in particular no `error` envelope with code `invalid_message` —
and returns with the state untouched. -/
theorem claim_C6_counterexample :
    websocket_handle_frame 5 "m1" "s1" 1 (some emptyContentFrame) demoRoute = (demoRoute, []) := rfl

/-- C6 (amended): a `message` frame with empty content is silently
ignored: no reply of any kind is sent to the sender, no message is
appended to `messages_db`, and the session record is not modified. -/
theorem claim_C6_empty_content_ignored (now : Nat) (mid session_id : String) (w : Nat)
    (st : RouteState) :
    websocket_handle_frame now mid session_id w (some emptyContentFrame) st = (st, []) := rfl

/-- C7 counterexample: with session "s1"'s tracked connection being
socket 2, a `typing` frame arriving from socket 1 produces exactly one
write, addressed to the *sender* (socket 1); socket 2 — the session's
other connection — receives nothing. -/
theorem claim_C7_counterexample :
    (websocket_handle_frame 5 "m1" "s1" 1 (some typingTrueFrame) demoRoute).2.map Prod.fst = [1] ∧
    2 ∉ (websocket_handle_frame 5 "m1" "s1" 1 (some typingTrueFrame) demoRoute).2.map Prod.fst ∧
    (websocket_handle_frame 5 "m1" "s1" 1 (some typingTrueFrame) demoRoute).1 = demoRoute := by
  refine ⟨rfl, by decide, rfl⟩

/-- C7 (amended): a `typing` frame with flag `b` is answered with a
single `typing` envelope carrying the session id and `b`, written back
to the sender's own socket; no state is modified and nothing is
persisted. -/
theorem claim_C7_typing_echoed_to_sender (now : Nat) (mid session_id : String) (w : Nat)
    (b : Bool) (st : RouteState) :
    websocket_handle_frame now mid session_id w
      (some (Json.obj [("type", Json.str "typing"),
        ("payload", Json.obj [("is_typing", Json.boolean b)])])) st =
      (st, [(w, Json.obj
        [("type", Json.str "typing"),
         ("payload", Json.obj
           [("session_id", Json.str session_id), ("is_typing", Json.boolean b)]),
         ("timestamp", Json.num now)])]) := rfl


theorem attachToSession_active (c : String) (sid : Option String) (st : ManagerState) :
    (attachToSession c sid st).active_connections = st.active_connections := by
  unfold attachToSession
  rcases sid with _ | s
  · rfl
  · dsimp only
    (repeat' split) <;> rfl

theorem attachToSession_metadata (c : String) (sid : Option String) (st : ManagerState) :
    (attachToSession c sid st).connection_metadata = st.connection_metadata := by
  unfold attachToSession
  rcases sid with _ | s
  · rfl
  · dsimp only
    (repeat' split) <;> rfl

theorem attachToSession_delivered (c : String) (sid : Option String) (st : ManagerState) :
    (attachToSession c sid st).delivered = st.delivered := by
  unfold attachToSession
  rcases sid with _ | s
  · rfl
  · dsimp only
    (repeat' split) <;> rfl

/-- C8 counterexample: the acknowledgment that `connect` delivers to the
new connection carries its ids under a `"data"` key and has no
`"payload"` field, so it is not the `{type, payload, timestamp}` wire
envelope the claim describes. -/
theorem claim_C8_counterexample :
    (connect transportOk 0 5 "c1" (some "s1") emptyManager).delivered =
      [(5, ackMessage "c1" (some "s1") 0)] ∧
    jHasKey (ackMessage "c1" (some "s1") 0) "payload" = false ∧
    jHasKey (ackMessage "c1" (some "s1") 0) "data" = true ∧
    jHasKey (ackMessage "c1" (some "s1") 0) "type" = true ∧
    jHasKey (ackMessage "c1" (some "s1") 0) "timestamp" = true :=
  ⟨rfl, rfl, rfl, rfl, rfl⟩

/-- C8 (amended): whenever the ack transport send succeeds, `connect`
delivers to the new connection's socket a `connection_ack` envelope
with top-level fields `type`, `data` and `timestamp` — not `payload` —
whose `data` object carries the new connection id and the session id. -/
theorem claim_C8_connect_ack (t : Nat → Bool) (now w : Nat) (c : String) (sid : Option String)
    (st : ManagerState) (ht : t w = true) :
    (connect t now w c sid st).delivered = st.delivered ++ [(w, ackMessage c sid now)] ∧
    jGet (ackMessage c sid now) "type" = some (Json.str "connection_ack") ∧
    jGet (ackMessage c sid now) "timestamp" = some (Json.num now) ∧
    jGet (ackMessage c sid now) "payload" = none ∧
    (∃ d, jGet (ackMessage c sid now) "data" = some d ∧
      jGet d "connection_id" = some (Json.str c) ∧
      jGet d "session_id" = some (match sid with | some s => Json.str s | none => Json.null)) := by
  refine ⟨?_, rfl, rfl, rfl, ⟨_, rfl, rfl, rfl⟩⟩
  have hw : alFind c (attachToSession c sid { st with
      active_connections := alSet c w st.active_connections,
      connection_metadata := alSet c ⟨sid, now, now⟩ st.connection_metadata }).active_connections = some w := by
    rw [attachToSession_active]
    exact alFind_alSet_self c w st.active_connections
  have hm : (alFind c (attachToSession c sid { st with
      active_connections := alSet c w st.active_connections,
      connection_metadata := alSet c ⟨sid, now, now⟩ st.connection_metadata }).connection_metadata).isSome := by
    rw [attachToSession_metadata]
    rw [alFind_alSet_self]
    rfl
  show (send_personal_message t now c (ackMessage c sid now) _).2.delivered = _
  rw [send_personal_ok hw ht hm]
  show (attachToSession c sid _).delivered ++ [(w, ackMessage c sid now)] = _
  rw [attachToSession_delivered]

/-- C8 witness: connecting "c1" (socket 5) to session "s1" on the empty
manager over a transport that succeeds. -/
theorem claim_C8_witness :
    (connect transportOk 0 5 "c1" (some "s1") emptyManager).delivered =
      emptyManager.delivered ++ [(5, ackMessage "c1" (some "s1") 0)] ∧
    jGet (ackMessage "c1" (some "s1") 0) "type" = some (Json.str "connection_ack") ∧
    jGet (ackMessage "c1" (some "s1") 0) "timestamp" = some (Json.num 0) ∧
    jGet (ackMessage "c1" (some "s1") 0) "payload" = none ∧
    (∃ d, jGet (ackMessage "c1" (some "s1") 0) "data" = some d ∧
      jGet d "connection_id" = some (Json.str "c1") ∧
      jGet d "session_id" = some (match (some "s1" : Option String) with | some s => Json.str s | none => Json.null)) :=
  claim_C8_connect_ack transportOk 0 5 "c1" (some "s1") emptyManager rfl

/-- C2 counterexample: `connect` with an already-registered id "c1" but
a new session "s2", followed by `disconnect "c1"`, is a legal call
sequence from the empty manager, yet it strands "c1" inside session
"s1"'s connection set while "c1" is gone from `active_connections` and
`connection_metadata` — referential integrity fails. -/
theorem claim_C2_counterexample :
    Reachable (disconnect "c1" (connect transportOk 0 2 "c1" (some "s2")
      (connect transportOk 0 1 "c1" (some "s1") emptyManager))) ∧
    ¬ RefIntegrity (disconnect "c1" (connect transportOk 0 2 "c1" (some "s2")
      (connect transportOk 0 1 "c1" (some "s1") emptyManager))) := by
  constructor
  · exact Reachable.disconnect "c1" (Reachable.connect transportOk 0 2 "c1" (some "s2")
      (Reachable.connect transportOk 0 1 "c1" (some "s1") Reachable.empty))
  · intro h
    have h2 := h "s1" ["c1"] rfl "c1" (List.mem_singleton.mpr rfl)
    exact absurd h2.1 (by decide)

/-- C2 (amended): referential integrity — every connection id in any
session's set is a key of both `active_connections` and
`connection_metadata` — holds in every state reachable from the empty
manager when `connect` is only called with connection ids that are not
currently registered (as the uuid-generating callers do). -/
theorem claim_C2_ref_integrity_fresh (st : ManagerState) (h : ReachableFresh st) :
    RefIntegrity st := by
  have hi := Inv_of_reachableFresh h
  intro s conns hs c hc
  obtain ⟨h0, h1, h2, hmem⟩ := hi.sessSound s conns hs
  obtain ⟨m, hfm, -⟩ := hmem c hc
  have hms : (alFind c st.connection_metadata).isSome := by
    rw [hfm]
    rfl
  exact ⟨(hi.activeMeta c).mpr hms, hms⟩

/-- C2 witness: member "c1" of session "s1"'s set is registered in both
registries after a fresh-id connect on the empty manager. -/
theorem claim_C2_witness :
    (alFind "c1" (connect transportOk 0 1 "c1" (some "s1") emptyManager).active_connections).isSome ∧
    (alFind "c1" (connect transportOk 0 1 "c1" (some "s1") emptyManager).connection_metadata).isSome :=
  claim_C2_ref_integrity_fresh _
    (@ReachableFresh.connect transportOk 0 1 "c1" (some "s1") emptyManager rfl ReachableFresh.empty)
    "s1" ["c1"] rfl "c1" (List.mem_singleton.mpr rfl)

/-- C3: in every reachable manager state no session is mapped to an
empty connection set, and disconnecting the last connection of a
session removes the session's key outright, after which
`get_session_connection_count` returns 0. -/
theorem claim_C3_no_empty_sessions (st : ManagerState) (h : Reachable st) :
    NoEmptySession st ∧
    (∀ c mc s, alFind c st.connection_metadata = some mc → mc.session_id = some s → s ≠ "" →
      alFind s st.session_connections = some [c] →
      (alFind c st.active_connections).isSome →
      alFind s (disconnect c st).session_connections = none ∧
      get_session_connection_count s (disconnect c st) = 0) := by
  refine ⟨NoEmpty_of_reachable h, ?_⟩
  intro c mc s hmc hsid hs hconns hact
  have hdrop : (disconnect c st).session_connections =
      (dropFromSession c (some s) st).session_connections := by
    rw [disconnect_session hact, hmc]
    simp only [Option.some_bind, hsid]
  have he : ([c].filter (fun x => decide (x ≠ c))) = [] := by simp
  have hnone : alFind s (disconnect c st).session_connections = none := by
    rw [hdrop, dropFromSession_emptied c s [c] st hs hconns he]
    exact alFind_alDel_self s st.session_connections
  refine ⟨hnone, ?_⟩
  unfold get_session_connection_count
  rw [hnone]
  rfl

/-- C3 witness: session "s1" disappears from the index once its only
connection "c1" is disconnected. -/
theorem claim_C3_witness :
    alFind "s1" (disconnect "c1" (connect transportOk 0 1 "c1" (some "s1") emptyManager)).session_connections = none ∧
    get_session_connection_count "s1" (disconnect "c1" (connect transportOk 0 1 "c1" (some "s1") emptyManager)) = 0 :=
  (claim_C3_no_empty_sessions _
    (Reachable.connect transportOk 0 1 "c1" (some "s1") Reachable.empty)).2
    "c1" ⟨some "s1", 0, 0⟩ "s1" rfl rfl (by decide) rfl rfl


/-- C10 (implicit): the route layer's `active_connections` is keyed by
session id, so a session tracks at most one socket; accepting a second
WebSocket for the same session overwrites the entry, and afterwards
both the `send_message` broadcast and the `delete_session` teardown
reach only the most recently accepted socket. -/
theorem claim_C10_route_single_connection (st : RouteState) (s : String) (w1 w2 : Nat)
    (now1 now2 now3 : Nat) (mid role content : String) (st1 st2 : RouteState) (j1 j2 : Json)
    (h1 : websocket_accept now1 w1 s st = some (st1, j1))
    (h2 : websocket_accept now2 w2 s st1 = some (st2, j2)) :
    alFind s st2.active_connections = some w2 ∧
    ((alKeys st.active_connections).Nodup → (alKeys st2.active_connections).Nodup) ∧
    (∀ r, send_message now3 mid s role content st2 = some r → r.2.2.map Prod.fst = [w2]) ∧
    delete_session s st2 =
      some (⟨alDel s st2.sessions_db, alDel s st2.messages_db, alDel s st2.active_connections⟩, some w2) := by
  unfold websocket_accept at h1 h2
  by_cases hs : (alFind s st.sessions_db).isSome
  case neg =>
    rw [if_neg hs] at h1
    exact Option.noConfusion h1
  case pos =>
  rw [if_pos hs] at h1
  simp only [Option.some.injEq, Prod.mk.injEq] at h1
  obtain ⟨h1st, -⟩ := h1
  have hsess1 : st1.sessions_db = st.sessions_db := by
    rw [← h1st]
  have hs1 : (alFind s st1.sessions_db).isSome := by
    rw [hsess1]
    exact hs
  rw [if_pos hs1] at h2
  simp only [Option.some.injEq, Prod.mk.injEq] at h2
  obtain ⟨h2st, -⟩ := h2
  have hact2 : st2.active_connections = alSet s w2 st1.active_connections := by
    rw [← h2st]
  have hsess2 : st2.sessions_db = st.sessions_db := by
    rw [← h2st]
    exact hsess1
  have hfind2 : alFind s st2.active_connections = some w2 := by
    rw [hact2]
    exact alFind_alSet_self s w2 st1.active_connections
  refine ⟨hfind2, ?_, ?_, ?_⟩
  · intro hnd
    rw [hact2]
    apply nodup_alKeys_alSet
    rw [← h1st]
    show (alKeys (alSet s w1 st.active_connections)).Nodup
    exact nodup_alKeys_alSet s w1 hnd
  · intro r hr
    have hs2 : (alFind s st2.sessions_db).isSome := by
      rw [hsess2]
      exact hs
    obtain ⟨sess, hsess⟩ := Option.isSome_iff_exists.mp hs2
    unfold send_message at hr
    rw [hsess] at hr
    dsimp only at hr
    rw [hfind2] at hr
    dsimp only at hr
    simp only [Option.some.injEq] at hr
    rw [← hr]
    rfl
  · unfold delete_session
    rw [if_pos (by rw [hsess2]; exact hs), hfind2]


theorem sendLoop_nil (t : Nat → Bool) (now : Nat) (msg : Json) (st : ManagerState) :
    sendLoop t now msg [] st = (0, st) := rfl

theorem sendLoop_cons (t : Nat → Bool) (now : Nat) (msg : Json) (c : String)
    (rest : List String) (st : ManagerState) :
    sendLoop t now msg (c :: rest) st =
      ((if (send_personal_message t now c msg st).1 then 1 else 0) +
        (sendLoop t now msg rest (send_personal_message t now c msg st).2).1,
       (sendLoop t now msg rest (send_personal_message t now c msg st).2).2) := rfl

/-- C1: for a session whose set is {c1, c2} with both registered, a
transport that fails on c1's socket and succeeds on c2's makes
`send_to_session` return 1; c2's socket still receives the message, and
afterwards c1 is gone from `active_connections`, `connection_metadata`
and the session's connection set (which is left as {c2}). -/
theorem claim_C1_partial_failure_fanout (t : Nat → Bool) (now : Nat) (st : ManagerState)
    (s c1 c2 : String) (w1 w2 : Nat) (m1 m2 : ConnMeta) (msg : Json) (l : List String)
    (hne : c1 ≠ c2)
    (hl : alFind s st.session_connections = some l)
    (hl2 : l = [c1, c2] ∨ l = [c2, c1])
    (ha1 : alFind c1 st.active_connections = some w1)
    (ha2 : alFind c2 st.active_connections = some w2)
    (hm1 : alFind c1 st.connection_metadata = some m1)
    (hm2 : alFind c2 st.connection_metadata = some m2)
    (hs1 : m1.session_id = some s)
    (hs : s ≠ "")
    (ht1 : t w1 = false)
    (ht2 : t w2 = true) :
    (send_to_session t now s msg st).1 = 1 ∧
    (w2, msg) ∈ (send_to_session t now s msg st).2.delivered ∧
    alFind c1 (send_to_session t now s msg st).2.active_connections = none ∧
    alFind c1 (send_to_session t now s msg st).2.connection_metadata = none ∧
    alFind s (send_to_session t now s msg st).2.session_connections = some [c2] ∧
    (alFind c2 (send_to_session t now s msg st).2.active_connections).isSome := by
  have hne2 : c2 ≠ c1 := Ne.symm hne
  have hact1 : (alFind c1 st.active_connections).isSome := by
    rw [ha1]
    rfl
  have hm2S : (alFind c2 st.connection_metadata).isSome := by
    rw [hm2]
    rfl
  rcases hl2 with rfl | rfl
  · -- delivery order c1 then c2
    have hr1 : send_personal_message t now c1 msg st = (false, disconnect c1 st) :=
      send_personal_fail ha1 ht1
    obtain ⟨hDa, hDm, hDd⟩ := disconnect_fields hact1
    have hfil : [c1, c2].filter (fun x => decide (x ≠ c1)) = [c2] := by
      simp [hne2]
    have hDs : (disconnect c1 st).session_connections = alSet s [c2] st.session_connections := by
      rw [disconnect_session hact1, hm1]
      simp only [Option.some_bind]
      rw [hs1, dropFromSession_kept c1 s [c1, c2] st hs hl (by rw [hfil]; exact List.cons_ne_nil c2 [])]
      rw [hfil]
    have hw2D : alFind c2 (disconnect c1 st).active_connections = some w2 := by
      rw [hDa, alFind_alDel_ne _ hne2, ha2]
    have hm2D : (alFind c2 (disconnect c1 st).connection_metadata).isSome := by
      rw [hDm, alFind_alDel_ne _ hne2, hm2]
      rfl
    have hr2 : send_personal_message t now c2 msg (disconnect c1 st) =
        (true, { disconnect c1 st with
          delivered := (disconnect c1 st).delivered ++ [(w2, msg)],
          connection_metadata := alMod c2 (fun m => { m with last_activity := now })
            (disconnect c1 st).connection_metadata }) :=
      send_personal_ok hw2D ht2 hm2D
    have hrun : send_to_session t now s msg st = (1, { disconnect c1 st with
        delivered := (disconnect c1 st).delivered ++ [(w2, msg)],
        connection_metadata := alMod c2 (fun m => { m with last_activity := now })
          (disconnect c1 st).connection_metadata }) := by
      unfold send_to_session
      rw [hl]
      dsimp only
      rw [sendLoop_cons, hr1]
      dsimp only
      rw [sendLoop_cons, hr2]
      dsimp only
      rw [sendLoop_nil]
      simp
    refine ⟨by rw [hrun], ?_, ?_, ?_, ?_, ?_⟩
    · rw [hrun]
      simp
    · rw [hrun]
      show alFind c1 (disconnect c1 st).active_connections = none
      rw [hDa, alFind_alDel_self]
    · rw [hrun]
      show alFind c1 (alMod c2 (fun m => { m with last_activity := now })
        (disconnect c1 st).connection_metadata) = none
      rw [alFind_alMod_ne _ _ hne, hDm, alFind_alDel_self]
    · rw [hrun]
      show alFind s (disconnect c1 st).session_connections = some [c2]
      rw [hDs, alFind_alSet_self]
    · rw [hrun]
      show (alFind c2 (disconnect c1 st).active_connections).isSome
      rw [hw2D]
      rfl
  · -- delivery order c2 then c1
    have hA_ok : send_personal_message t now c2 msg st =
        (true, { st with
          delivered := st.delivered ++ [(w2, msg)],
          connection_metadata := alMod c2 (fun m => { m with last_activity := now })
            st.connection_metadata }) :=
      send_personal_ok ha2 ht2 hm2S
    have ha1A : alFind c1 ({ st with
        delivered := st.delivered ++ [(w2, msg)],
        connection_metadata := alMod c2 (fun m => { m with last_activity := now })
          st.connection_metadata } : ManagerState).active_connections = some w1 := ha1
    have hact1A : (alFind c1 ({ st with
        delivered := st.delivered ++ [(w2, msg)],
        connection_metadata := alMod c2 (fun m => { m with last_activity := now })
          st.connection_metadata } : ManagerState).active_connections).isSome := by
      rw [ha1A]
      rfl
    have hr2B : send_personal_message t now c1 msg { st with
        delivered := st.delivered ++ [(w2, msg)],
        connection_metadata := alMod c2 (fun m => { m with last_activity := now })
          st.connection_metadata } =
        (false, disconnect c1 { st with
          delivered := st.delivered ++ [(w2, msg)],
          connection_metadata := alMod c2 (fun m => { m with last_activity := now })
            st.connection_metadata }) :=
      send_personal_fail ha1A ht1
    obtain ⟨hBa, hBm, hBd⟩ := disconnect_fields hact1A
    have hm1A : alFind c1 ({ st with
        delivered := st.delivered ++ [(w2, msg)],
        connection_metadata := alMod c2 (fun m => { m with last_activity := now })
          st.connection_metadata } : ManagerState).connection_metadata = some m1 := by
      show alFind c1 (alMod c2 (fun m => { m with last_activity := now }) st.connection_metadata) = some m1
      rw [alFind_alMod_ne _ _ hne]
      exact hm1
    have hlA : alFind s ({ st with
        delivered := st.delivered ++ [(w2, msg)],
        connection_metadata := alMod c2 (fun m => { m with last_activity := now })
          st.connection_metadata } : ManagerState).session_connections = some [c2, c1] := hl
    have hfilB : [c2, c1].filter (fun x => decide (x ≠ c1)) = [c2] := by
      simp [hne2]
    have hBs : (disconnect c1 { st with
        delivered := st.delivered ++ [(w2, msg)],
        connection_metadata := alMod c2 (fun m => { m with last_activity := now })
          st.connection_metadata }).session_connections =
        alSet s [c2] st.session_connections := by
      rw [disconnect_session hact1A, hm1A]
      simp only [Option.some_bind]
      rw [hs1, dropFromSession_kept c1 s [c2, c1] _ hs hlA (by rw [hfilB]; exact List.cons_ne_nil c2 [])]
      rw [hfilB]
    have hrun : send_to_session t now s msg st =
        (1, disconnect c1 { st with
          delivered := st.delivered ++ [(w2, msg)],
          connection_metadata := alMod c2 (fun m => { m with last_activity := now })
            st.connection_metadata }) := by
      unfold send_to_session
      rw [hl]
      dsimp only
      rw [sendLoop_cons, hA_ok]
      dsimp only
      rw [sendLoop_cons, hr2B]
      dsimp only
      rw [sendLoop_nil]
      simp
    refine ⟨by rw [hrun], ?_, ?_, ?_, ?_, ?_⟩
    · rw [hrun, hBd]
      show (w2, msg) ∈ st.delivered ++ [(w2, msg)]
      simp
    · rw [hrun, hBa, alFind_alDel_self]
    · rw [hrun, hBm, alFind_alDel_self]
    · rw [hrun, hBs, alFind_alSet_self]
    · rw [hrun, hBa, alFind_alDel_ne _ hne2]
      show (alFind c2 st.active_connections).isSome
      rw [ha2]
      rfl


/-- C1 witness: session "s1" = {"c1" (socket 1), "c2" (socket 2)}, with
the transport broken exactly on socket 1. -/
theorem claim_C1_witness :
    (send_to_session transportFail1 7 "s1" (Json.str "hello") twoConnState).1 = 1 ∧
    ((2 : Nat), Json.str "hello") ∈ (send_to_session transportFail1 7 "s1" (Json.str "hello") twoConnState).2.delivered ∧
    alFind "c1" (send_to_session transportFail1 7 "s1" (Json.str "hello") twoConnState).2.active_connections = none ∧
    alFind "c1" (send_to_session transportFail1 7 "s1" (Json.str "hello") twoConnState).2.connection_metadata = none ∧
    alFind "s1" (send_to_session transportFail1 7 "s1" (Json.str "hello") twoConnState).2.session_connections = some ["c2"] ∧
    (alFind "c2" (send_to_session transportFail1 7 "s1" (Json.str "hello") twoConnState).2.active_connections).isSome :=
  claim_C1_partial_failure_fanout transportFail1 7 twoConnState "s1" "c1" "c2" 1 2
    ⟨some "s1", 0, 0⟩ ⟨some "s1", 0, 0⟩ (Json.str "hello") ["c1", "c2"]
    (by decide) rfl (Or.inl rfl) rfl rfl rfl rfl rfl (by decide) rfl rfl

/-- C10 witness: sockets 7 then 8 accepted for session "s1". -/
theorem claim_C10_witness :
    alFind "s1" (⟨[("s1", demoSession)], [("s1", [])], [("s1", 8)]⟩ : RouteState).active_connections = some 8 :=
  (claim_C10_route_single_connection demoRoute "s1" 7 8 0 0 9 "m1" "user" "hi" _ _ _ _ rfl rfl).1

/-- C5: the sweep equals folding the ordinary `disconnect` over exactly
the metadata entries whose idle time strictly exceeds the timeout,
returns their number, removes exactly those connections from both
registries, and leaves every other connection's registry entries (and
its metadata value) unchanged. -/
theorem claim_C5_sweep_exact (now timeout_seconds : Nat) (st : ManagerState)
    (hnd : (alKeys st.connection_metadata).Nodup)
    (hsub : ∀ c, (alFind c st.connection_metadata).isSome → (alFind c st.active_connections).isSome) :
    cleanup_inactive_connections now timeout_seconds st =
      ((st.connection_metadata.filter (fun it => decide ((now : Int) - (it.2.last_activity : Int) > (timeout_seconds : Int)))).length,
       disconnectAll (st.connection_metadata.filter (fun it => decide ((now : Int) - (it.2.last_activity : Int) > (timeout_seconds : Int)))) st) ∧
    (∀ c m, alFind c st.connection_metadata = some m →
      (((now : Int) - (m.last_activity : Int) > (timeout_seconds : Int)) →
        alFind c (cleanup_inactive_connections now timeout_seconds st).2.connection_metadata = none ∧
        alFind c (cleanup_inactive_connections now timeout_seconds st).2.active_connections = none) ∧
      (¬ ((now : Int) - (m.last_activity : Int) > (timeout_seconds : Int)) →
        alFind c (cleanup_inactive_connections now timeout_seconds st).2.connection_metadata = some m ∧
        alFind c (cleanup_inactive_connections now timeout_seconds st).2.active_connections = alFind c st.active_connections)) := by
  have hcl : cleanup_inactive_connections now timeout_seconds st =
      ((st.connection_metadata.filter (fun it => decide ((now : Int) - (it.2.last_activity : Int) > (timeout_seconds : Int)))).length,
       disconnectAll (st.connection_metadata.filter (fun it => decide ((now : Int) - (it.2.last_activity : Int) > (timeout_seconds : Int)))) st) :=
    cleanupLoop_spec now timeout_seconds st.connection_metadata st
  have hndf : (alKeys (st.connection_metadata.filter (fun it => decide ((now : Int) - (it.2.last_activity : Int) > (timeout_seconds : Int))))).Nodup :=
    List.Nodup.sublist (List.Sublist.map Prod.fst (List.filter_sublist st.connection_metadata)) hnd
  have hact : ∀ it, it ∈ st.connection_metadata.filter (fun it => decide ((now : Int) - (it.2.last_activity : Int) > (timeout_seconds : Int))) →
      (alFind it.1 st.active_connections).isSome := by
    intro it hit
    have hmem := List.mem_of_mem_filter hit
    have hfound : alFind it.1 st.connection_metadata = some it.2 :=
      alFind_eq_some_of_mem_nodup hnd hmem
    exact hsub it.1 (by rw [hfound]; rfl)
  have hfind := disconnectAll_find
    (st.connection_metadata.filter (fun it => decide ((now : Int) - (it.2.last_activity : Int) > (timeout_seconds : Int)))) hndf hact
  refine ⟨hcl, ?_⟩
  intro c m hm
  obtain ⟨hA, hM⟩ := hfind c
  constructor
  · intro hidle
    have hcmem : c ∈ alKeys (st.connection_metadata.filter (fun it => decide ((now : Int) - (it.2.last_activity : Int) > (timeout_seconds : Int)))) :=
      (mem_alKeys_filter_iff _ hnd c).mpr ⟨m, hm, decide_eq_true hidle⟩
    constructor
    · rw [hcl]
      rw [hM, if_pos hcmem]
    · rw [hcl]
      rw [hA, if_pos hcmem]
  · intro hidle
    have hcnot : c ∉ alKeys (st.connection_metadata.filter (fun it => decide ((now : Int) - (it.2.last_activity : Int) > (timeout_seconds : Int)))) := by
      intro hcm
      obtain ⟨v, hv, hq⟩ := (mem_alKeys_filter_iff _ hnd c).mp hcm
      rw [hm] at hv
      injection hv with hv2
      subst hv2
      exact hidle (of_decide_eq_true hq)
    constructor
    · rw [hcl]
      rw [hM, if_neg hcnot]
      exact hm
    · rw [hcl]
      rw [hA, if_neg hcnot]

/-- C5 witness: sweeping the two-connection state (both idle since 0)
at time 10 with a 3-second timeout reclaims "c1" from both registries. -/
theorem claim_C5_witness :
    alFind "c1" (cleanup_inactive_connections 10 3 twoConnState).2.connection_metadata = none ∧
    alFind "c1" (cleanup_inactive_connections 10 3 twoConnState).2.active_connections = none :=
  ((claim_C5_sweep_exact 10 3 twoConnState (by decide) (by
    intro c h
    have hM : twoConnState.connection_metadata =
        [("c1", ⟨some "s1", 0, 0⟩), ("c2", ⟨some "s1", 0, 0⟩)] := rfl
    have hA : twoConnState.active_connections = [("c1", 1), ("c2", 2)] := rfl
    rw [hM] at h
    rw [hA]
    by_cases h1 : ("c1" : String) = c
    · simp [alFind, h1]
    · by_cases h2 : ("c2" : String) = c
      · simp [alFind, h1, h2]
      · simp [alFind, h1, h2] at h)).2 "c1" ⟨some "s1", 0, 0⟩ rfl).1 (by decide)

end ChatServer
